import Mathlib

/-!
Verification of the react-native-image-cache-hoc repository: a shallow
embedding of the library's configuration handling, prune-notification
registry, flush/prune operations and the caching component's lifecycle,
with theorems settling the specified claims.

Sources embedded: src/lib/utils.js (PruneHandler, flush, flushFile) and
src/lib/imageCacheHoc.js (ImageCacheFAC).  The repository's
src/lib/FileSystem.js is not among the provided sources; the pieces of it
that the claims need (getFileNameFromUrl, unlink) are modelled from the
specification and marked as such.  JavaScript mutation of static state is
rendered as explicit state passing; promise rejection is rendered as
Except; callbacks are identified by opaque numeric ids and an "invocation"
is recorded as the (callback id, argument) pair the code would fire.
-/

/-! ## Configuration (ImageCacheFAC.options / setOptions) -/

/-- Process-wide configuration, from the static `ImageCacheFAC.options`
initializer in src/lib/imageCacheHoc.js. -/
structure Options where
  validProtocols : List String
  fileHostWhitelist : List String
  cachePruneTriggerLimit : Nat
  fileDirName : String
deriving DecidableEq

/-- Argument to `setOptions`: a JS object that may supply any subset of the
configuration fields (an absent key is `none`). -/
structure OptionsArg where
  validProtocols : Option (List String)
  fileHostWhitelist : Option (List String)
  cachePruneTriggerLimit : Option Nat
  fileDirName : Option String
deriving DecidableEq

/-- Modelled from the `shallowMerge` helper of the `fnional` dependency:
standard JS object spread `{...a, ...b}` — every key present in `b`
overwrites, every key absent from `b` is retained from `a`. -/
def shallowMerge (a : Options) (b : OptionsArg) : Options :=
  { validProtocols := b.validProtocols.getD a.validProtocols,
    fileHostWhitelist := b.fileHostWhitelist.getD a.fileHostWhitelist,
    cachePruneTriggerLimit := b.cachePruneTriggerLimit.getD a.cachePruneTriggerLimit,
    fileDirName := b.fileDirName.getD a.fileDirName }

/-- The static default options of `ImageCacheFAC` (src/lib/imageCacheHoc.js). -/
def ImageCacheFAC.options : Options :=
  { validProtocols := ["https"],
    fileHostWhitelist := [],
    cachePruneTriggerLimit := 1024 * 1024 * 15,
    fileDirName := "react-native-image-cache-hoc" }

/-- `ImageCacheFAC.setOptions` from src/lib/imageCacheHoc.js: replaces the
static options with `shallowMerge(ImageCacheFAC.options, options)`.  The
mutation of the static field is rendered as a function from the current
configuration to the new one. -/
def ImageCacheFAC.setOptions (current : Options) (o : OptionsArg) : Options :=
  shallowMerge current o

/-! ## PruneHandler (src/lib/utils.js) -/

/-- The `PruneHandler.handlers` static object: an association list from a
URL to the array of callbacks registered for it.  Callbacks are opaque ids
compared by identity, as JS `!==` does. -/
abbrev PruneHandlers := List (String × List Nat)

/-- Key lookup in the handlers object (`PruneHandler.handlers[url]`). -/
def alookup : PruneHandlers → String → Option (List Nat)
  | [], _ => none
  | (k, v) :: rest, url => if k = url then some v else alookup rest url

/-- Key assignment in the handlers object (`PruneHandler.handlers[url] = v`). -/
def aset : PruneHandlers → String → List Nat → PruneHandlers
  | [], url, v => [(url, v)]
  | (k, w) :: rest, url, v =>
    if k = url then (url, v) :: rest else (k, w) :: aset rest url v

/-- `PruneHandler.add` from src/lib/utils.js: reads the current array for
`url` (defaulting to `[]`), appends the callback, and stores it back. -/
def PruneHandler.add (hs : PruneHandlers) (url : String) (cb : Nat) : PruneHandlers :=
  aset hs url ((alookup hs url).getD [] ++ [cb])

/-- `PruneHandler.remove` from src/lib/utils.js: if no array exists for
`url` it returns unchanged, otherwise stores back the array filtered to the
entries not identical to the callback. -/
def PruneHandler.remove (hs : PruneHandlers) (url : String) (cb : Nat) : PruneHandlers :=
  match alookup hs url with
  | none => hs
  | some handlers => aset hs url (handlers.filter (fun c => c != cb))

/-- `PruneHandler.trigger` from src/lib/utils.js: fires every handler
registered for `url` with `url` as argument; the result is the list of
(callback, argument) invocations, in order. -/
def PruneHandler.trigger (hs : PruneHandlers) (url : String) : List (Nat × String) :=
  match alookup hs url with
  | none => []
  | some handlers => handlers.map (fun cb => (cb, url))

/-- `onPruned` (exported as `PruneHandler.add`): registers the callback and
returns the unsubscribe closure `() => PruneHandler.remove(url, callback)`,
rendered as a function on the handlers state. -/
def onPruned (hs : PruneHandlers) (url : String) (cb : Nat) :
    PruneHandlers × (PruneHandlers → PruneHandlers) :=
  (PruneHandler.add hs url cb, fun s => PruneHandler.remove s url cb)

/-- The callbacks currently registered for a URL (the array in the handlers
object, or `[]` when the key is absent). -/
def registeredFor (hs : PruneHandlers) (url : String) : List Nat :=
  (alookup hs url).getD []

/-- `flushFile` from src/lib/utils.js: awaits `fileSystem.pruneFile(url, opts)`
and then calls `PruneHandler.trigger(url)`.  The awaited prune is passed in
as its outcome; a rejection propagates (the `trigger` line is never
reached), and the fired invocations are returned alongside the result. -/
def flushFile (hs : PruneHandlers) (url : String) (pruneOutcome : Except String Bool) :
    Except String Unit × List (Nat × String) :=
  match pruneOutcome with
  | Except.error e => (Except.error e, [])
  | Except.ok _ => (Except.ok (), PruneHandler.trigger hs url)

/-! ## flush (src/lib/utils.js) over the two storage areas -/

/-- The two storage areas of the engine. -/
inductive CacheArea
  | permanent
  | cache
deriving DecidableEq

/-- The files present in each area's directory. -/
structure FSState where
  permanentFiles : List String
  cacheFiles : List String
deriving DecidableEq

/-- The record returned by `flush`. -/
structure FlushResult where
  permanentDirFlushed : Bool
  cacheDirFlushed : Bool
deriving DecidableEq

/-- Modelled from the spec: `FileSystem.unlink` (FileSystem.js is not among
the provided sources) is the spec's `removeArea(area) -> bool` — it deletes
the area's directory wholesale and reports whether the deletion actually
removed something, `false` when the area was already empty. -/
def unlink (fs : FSState) (area : CacheArea) : FSState × Bool :=
  match area with
  | CacheArea.permanent => ({ fs with permanentFiles := [] }, !fs.permanentFiles.isEmpty)
  | CacheArea.cache => ({ fs with cacheFiles := [] }, !fs.cacheFiles.isEmpty)

/-- `flush` from src/lib/utils.js: unlinks the permanent and cache areas
(the two `unlink` calls touch disjoint directories, so running them in
sequence is equivalent to the source's `Promise.all`) and packages the two
booleans as `{permanentDirFlushed: results[0], cacheDirFlushed: results[1]}`. -/
def flush (fs : FSState) : FSState × FlushResult :=
  let rPerm := unlink fs CacheArea.permanent
  let rCache := unlink rPerm.1 CacheArea.cache
  (rCache.1, { permanentDirFlushed := rPerm.2, cacheDirFlushed := rCache.2 })

/-! ## Naming (modelled from the spec) and the component lifecycle -/

/-- JS truthiness for an optional string prop: `undefined` and the empty
string are falsy, any other string is truthy. -/
def jsStr : Option String → Option String
  | some s => if s = "" then none else some s
  | none => none

/-- Suffix test on strings via their character lists (kept elementary so
concrete instances evaluate by `decide`). -/
def endsWithStr (s suf : String) : Bool :=
  s.toList.reverse.take suf.toList.length == suf.toList.reverse

/-- Modelled from the spec: the stable hash/identifier the Naming component
derives from a URL, so that identical URLs map to identical names.  Only
determinism matters to the claims; a simple rolling hash stands in for the
source's digest. -/
def hashName (url : String) : String :=
  "rnich-" ++ toString (url.toList.foldl (fun a c => (a * 31 + c.toNat) % 4294967296) 7)

/-- Scanner for the extension inferable from a URL path: the run of
characters after the last dot that follows the last slash. -/
def extScan : List Char → Option (List Char) → Option (List Char)
  | [], acc => acc
  | '.' :: rest, _ => extScan rest (some [])
  | '/' :: rest, _ => extScan rest none
  | c :: rest, some acc => extScan rest (some (acc ++ [c]))
  | _ :: rest, none => extScan rest none

/-- Extension inferable from the URL path, if any (query strings are not
specially handled; the claims do not depend on that corner). -/
def extFromUrl (url : String) : Option String :=
  (extScan url.toList none).map fun l => { data := l }

/-- The naming options object the component passes to the naming routine. -/
structure NamingOpts where
  fileName : Option String
  extension : Option String
  headers : List (String × String)
deriving DecidableEq

/-- Modelled from the spec: `FileSystem.getFileNameFromUrl` (FileSystem.js
is not among the provided sources) is the spec's
`computeFileName(url, {fileName?, extension?, headers?})`: an explicit
`fileName` is used verbatim, with the extension appended if given and not
already present; otherwise a stable hash of the URL is used, with the
extension resolved as explicit option first, then the URL path's extension,
then none.  Absent options follow JS truthiness (empty string = absent). -/
def getFileNameFromUrl (url : String) (opts : NamingOpts) : String :=
  match jsStr opts.fileName with
  | some f =>
    match jsStr opts.extension with
    | some e => if endsWithStr f ("." ++ e) then f else f ++ "." ++ e
    | none => f
  | none =>
    match jsStr opts.extension with
    | some e => hashName url ++ "." ++ e
    | none =>
      match extFromUrl url with
      | some e => hashName url ++ "." ++ e
      | none => hashName url

/-- The props of `ImageCacheFAC` that its lifecycle reads (the source URL is
present on a constructed component, since the constructor validated it). -/
structure FACProps where
  sourceUri : String
  fileName : Option String
  extension : Option String
  headers : List (String × String)
deriving DecidableEq

/-- A call into the lock registry (`FileSystem.lockCacheFile` /
`FileSystem.unlockCacheFile`), carrying the file name and the holder id. -/
inductive RegCall
  | lock : String → String → RegCall
  | unlock : String → String → RegCall
deriving DecidableEq

/-- The file name `componentDidMount` (and `handleSourceChange`) locks:
`props.fileName || await getFileNameFromUrl(url, {headers, extension, fileName})`
(src/lib/imageCacheHoc.js). -/
def mountLockName (p : FACProps) : String :=
  (jsStr p.fileName).getD
    (getFileNameFromUrl p.sourceUri ⟨p.fileName, p.extension, p.headers⟩)

/-- The file name `componentWillUnmount` unlocks:
`await getFileNameFromUrl(uri, {headers, fileName, extension})` with no
`props.fileName ||` short-circuit (src/lib/imageCacheHoc.js). -/
def unmountUnlockName (p : FACProps) : String :=
  getFileNameFromUrl p.sourceUri ⟨p.fileName, p.extension, p.headers⟩

/-- Registry calls issued by `componentDidMount`. -/
def mountCalls (cid : String) (p : FACProps) : List RegCall :=
  [RegCall.lock (mountLockName p) cid]

/-- Registry calls issued when the source URL changes from `prev` to `cur`
(src/lib/imageCacheHoc.js): React invokes `componentWillReceiveProps` with
the incoming props `cur` while `this.props` still holds `prev`, and the
component forwards that argument to `handleSourceChange` under the name
`prevProps` — so the code's `prevFileName`, which it unlocks, is derived
from the new props `cur`, and its `fileName`, which it locks, is derived
from `this.props`, the old props `prev`, both under the component id. -/
def sourceChangeCalls (cid : String) (prev cur : FACProps) : List RegCall :=
  [RegCall.unlock (mountLockName cur) cid, RegCall.lock (mountLockName prev) cid]

/-- Registry calls issued by `componentWillUnmount`. -/
def unmountCalls (cid : String) (p : FACProps) : List RegCall :=
  [RegCall.unlock (unmountUnlockName p) cid]

/-- Registry calls of a component's life after mounting with props `prev`:
one `handleSourceChange` per props update, then the unmount unlock. -/
def changeTrace (cid : String) : FACProps → List FACProps → List RegCall
  | prev, [] => unmountCalls cid prev
  | prev, p :: rest => sourceChangeCalls cid prev p ++ changeTrace cid p rest

/-- The full mount-to-unmount registry trace of one component instance. -/
def lifecycleTrace (cid : String) (p0 : FACProps) (changes : List FACProps) : List RegCall :=
  mountCalls cid p0 ++ changeTrace cid p0 changes

/-- The (name, holder) pairs passed to `lockCacheFile` along a trace. -/
def locksOf : List RegCall → List (String × String)
  | [] => []
  | RegCall.lock n h :: rest => (n, h) :: locksOf rest
  | RegCall.unlock _ _ :: rest => locksOf rest

/-- The (name, holder) pairs passed to `unlockCacheFile` along a trace. -/
def unlocksOf : List RegCall → List (String × String)
  | [] => []
  | RegCall.lock _ _ :: rest => unlocksOf rest
  | RegCall.unlock n h :: rest => (n, h) :: unlocksOf rest

/-- Condition under which the mount-time and unmount-time name computations
agree: the `fileName` prop is falsy, or the `extension` prop is falsy, or
`fileName` already ends in that extension. -/
def symCondB (p : FACProps) : Bool :=
  match jsStr p.fileName with
  | none => true
  | some f =>
    match jsStr p.extension with
    | none => true
    | some e => endsWithStr f ("." ++ e)

/-! ## _loadImage (src/lib/imageCacheHoc.js) -/

/-- The component state `{localFilePath, pending, rejected}`. -/
structure CompState where
  localFilePath : Option String
  pending : Bool
  rejected : Bool
deriving DecidableEq

/-- `_loadImage` from src/lib/imageCacheHoc.js.  The awaited
`fileSystem.getLocalFilePathFromUrl` call is passed in as its outcome.  The
method first merges `{pending: true, rejected: false, localFilePath: null}`
into the state; on rejection it warns, invokes the `onReject` prop when one
was provided (the returned boolean records that invocation) and merges
`{rejected: true, pending: false}`; on success it merges the resolved path
only when the component is still mounted.  The function is total: the
try/catch keeps the rejection from propagating out of the routine. -/
def ImageCacheFAC.loadImage (st : CompState) (resolveOutcome : Except String String)
    (hasOnReject : Bool) (isMounted : Bool) : CompState × Bool :=
  let st1 : CompState := { st with pending := true, rejected := false, localFilePath := none }
  match resolveOutcome with
  | Except.error _ => ({ st1 with rejected := true, pending := false }, hasOnReject)
  | Except.ok path =>
    if isMounted then
      ({ st1 with localFilePath := some path, rejected := false, pending := false }, false)
    else (st1, false)

/-! ## Constructor validation (src/lib/imageCacheHoc.js) -/

/-- Splits a character list at the first occurrence of `://`, returning the
part before it and the part after it. -/
def breakSub : List Char → Option (List Char × List Char)
  | ':' :: '/' :: '/' :: rest => some ([], rest)
  | c :: rest => (breakSub rest).map fun pr => (c :: pr.1, pr.2)
  | [] => none

/-- The host part of what follows `://`: the characters up to the first
path, port, query or fragment delimiter. -/
def hostStr (rest : List Char) : String :=
  { data := rest.takeWhile fun c => c != '/' && c != ':' && c != '?' && c != '#' }

/-- Modelled from the `validator` dependency's `isURL` as the component
invokes it (`require_protocol: true` and a `host_whitelist` key always
present): the string must contain `://`, the scheme before it must be one
of `protocols`, the host must be non-empty, and — because a provided
`host_whitelist` array, even an empty one, makes `isURL` return
`checkHost(host, host_whitelist)` — the host must be a member of
`hostWhitelist`. -/
def isURL (u : String) (protocols hostWhitelist : List String) : Bool :=
  match breakSub u.toList with
  | none => false
  | some (proto, rest) =>
    protocols.contains { data := proto } && hostStr rest != "" &&
      hostWhitelist.contains (hostStr rest)

/-- `_validateImageComponent` from src/lib/imageCacheHoc.js: builds
validator options whose `host_whitelist` starts as `[]` and is overwritten
with `options.fileHostWhitelist` only when that list is non-empty, then
requires `props.source.uri` to be truthy and `validator.isURL` to accept
it. -/
def validateImageComponent (opts : Options) (uri : Option String) : Bool :=
  match uri with
  | none => false
  | some u =>
    if u = "" then false
    else
      isURL u opts.validProtocols
        (if opts.fileHostWhitelist.isEmpty then [] else opts.fileHostWhitelist)

/-- The `ImageCacheFAC` constructor: assigns a component id, initialises
the file system handle, and runs `_validateImageComponent`, throwing when
validation fails.  It performs no lock-registry call and no fetch/resolve
call; the empty list of registry calls records that. -/
def construct (opts : Options) (uri : Option String) : Except String Unit × List RegCall :=
  (if validateImageComponent opts uri then Except.ok ()
   else Except.error "Invalid source prop. props.source.uri should be a web accessible url with a valid protocol and host.",
   [])

/-- The claim's notion of an acceptable URL: parseable with a scheme among
the configured valid protocols, a non-empty host, and — only when a host
whitelist is configured (non-empty) — a whitelisted host. -/
def specURLValid (opts : Options) (u : String) : Bool :=
  match breakSub u.toList with
  | none => false
  | some (proto, rest) =>
    opts.validProtocols.contains { data := proto } && hostStr rest != "" &&
      (opts.fileHostWhitelist.isEmpty || opts.fileHostWhitelist.contains (hostStr rest))

/-! ## Helper lemmas -/

/-- Evaluating `trigger` via the registered-callback view: it fires exactly
the array stored for the URL, pairing each callback with the URL. -/
theorem trigger_eq_registered_map (hs : PruneHandlers) (url : String) :
    PruneHandler.trigger hs url = (registeredFor hs url).map fun cb => (cb, url) := by
  unfold PruneHandler.trigger registeredFor
  cases h : alookup hs url <;> simp [h]

/-- Looking up a key right after assigning it yields the assigned value. -/
theorem alookup_aset (hs : PruneHandlers) (url : String) (v : List Nat) :
    alookup (aset hs url v) url = some v := by
  induction hs with
  | nil => simp [aset, alookup]
  | cons kv rest ih =>
    obtain ⟨k, w⟩ := kv
    by_cases h : k = url
    · simp [aset, alookup, h]
    · simp [aset, alookup, h, ih]

/-- Filtering out one callback id leaves the multiplicity of every other id
unchanged. -/
theorem count_filter_bne (l : List Nat) (a b : Nat) (h : a ≠ b) :
    ((l.filter fun c => c != b).count a) = l.count a := by
  induction l with
  | nil => rfl
  | cons x xs ih =>
    by_cases hx : x = b
    · subst hx
      simp [List.filter_cons, List.count_cons, ih, Ne.symm h]
    · simp [List.filter_cons, List.count_cons, hx, ih]

/-- Projecting the callback ids back out of a list of fired invocations. -/
theorem map_fst_pair (l : List Nat) (url : String) :
    (l.map fun cb => (cb, url)).map Prod.fst = l := by
  induction l with
  | nil => rfl
  | cons x xs ih => simp [ih]

/-- Under `symCondB`, the unmount-time name computation (a direct
`getFileNameFromUrl` call) agrees with the mount-time one (short-circuited
by a truthy `fileName` prop). -/
theorem unmount_eq_mount_of_symCond (p : FACProps) (h : symCondB p = true) :
    unmountUnlockName p = mountLockName p := by
  unfold unmountUnlockName mountLockName
  cases hf : jsStr p.fileName with
  | none => simp [getFileNameFromUrl, hf]
  | some f =>
    cases he : jsStr p.extension with
    | none => simp [getFileNameFromUrl, hf, he]
    | some e =>
      have h' : endsWithStr f ("." ++ e) = true := by
        simpa [symCondB, hf, he] using h
      simp [getFileNameFromUrl, hf, he, h']

/-! ## Claim theorems -/

/-- C1 (counterexample): with `fileName: 'pic'` and `extension: 'jpg'` and
unchanged props, the mount/unmount pair is not symmetric — mount locks
`pic` but unmount unlocks `pic.jpg`, so the claimed equality of the
(name, holder) pairs fails. -/
theorem lifecycle_unlock_name_differs :
    unlocksOf (lifecycleTrace "cid-1" ⟨"https://example.com/a", some "pic", some "jpg", []⟩ [])
      ≠ locksOf (lifecycleTrace "cid-1" ⟨"https://example.com/a", some "pic", some "jpg", []⟩ []) := by
  decide

/-- C1 (amended): on mount the component locks `props.fileName` when truthy,
else the derived name, under its holder id; a source-URL change — because
React hands `componentWillReceiveProps` the incoming props while
`this.props` still holds the old ones, and the handler treats that argument
as previous props — unlocks the name derived from the new props and locks
the name derived from the old props; unmount unlocks the name the naming
routine derives from current props.  For every mount/unmount pair with
unchanged props, the name and holder id passed to unlock equal those passed
to lock provided the props have a falsy `fileName`, or a falsy `extension`,
or a `fileName` already ending in that extension. -/
theorem lifecycle_lock_unlock_symmetric (cid : String) (p old new : FACProps)
    (h : symCondB p = true) :
    locksOf (lifecycleTrace cid p []) = unlocksOf (lifecycleTrace cid p [])
    ∧ sourceChangeCalls cid old new
        = [RegCall.unlock (mountLockName new) cid, RegCall.lock (mountLockName old) cid] := by
  constructor
  · simp [lifecycleTrace, mountCalls, changeTrace, unmountCalls, locksOf, unlocksOf,
      unmount_eq_mount_of_symCond p h]
  · rfl

/-- C1 (witness): a component mounted and unmounted with an unset
`fileName` prop locks and unlocks the same (name, holder) pair, and a
change between two concrete props emits an unlock of the new props' name
followed by a lock of the old props' name. -/
theorem lifecycle_lock_unlock_symmetric_witness :
    symCondB ⟨"https://e.c/a.png", none, none, []⟩ = true
    ∧ (locksOf (lifecycleTrace "cid-1" ⟨"https://e.c/a.png", none, none, []⟩ [])
        = unlocksOf (lifecycleTrace "cid-1" ⟨"https://e.c/a.png", none, none, []⟩ [])
      ∧ sourceChangeCalls "cid-1" ⟨"https://e.c/a.png", none, none, []⟩
            ⟨"https://e.c/b.png", none, none, []⟩
          = [RegCall.unlock (mountLockName ⟨"https://e.c/b.png", none, none, []⟩) "cid-1",
             RegCall.lock (mountLockName ⟨"https://e.c/a.png", none, none, []⟩) "cid-1"]) :=
  ⟨by decide,
   lifecycle_lock_unlock_symmetric "cid-1" ⟨"https://e.c/a.png", none, none, []⟩
     ⟨"https://e.c/a.png", none, none, []⟩ ⟨"https://e.c/b.png", none, none, []⟩ (by decide)⟩

/-- C2: a `flushFile` call whose prune succeeded fires exactly the
callbacks currently registered for that URL — the fired callback ids are
precisely the registered array (each registration fired exactly once, in
order), and every invocation carries that URL, so callbacks registered for
other URLs are not invoked. -/
theorem flushFile_fires_each_registered_exactly_once (hs : PruneHandlers) (url : String) (b : Bool) :
    ((flushFile hs url (Except.ok b)).2.map Prod.fst = registeredFor hs url)
    ∧ ∀ x ∈ (flushFile hs url (Except.ok b)).2, x.2 = url := by
  have ht : (flushFile hs url (Except.ok b)).2 = (registeredFor hs url).map fun cb => (cb, url) := by
    simp [flushFile, trigger_eq_registered_map]
  rw [ht]
  constructor
  · exact map_fst_pair _ url
  · intro x hx
    simp only [List.mem_map] at hx
    obtain ⟨c, _, rfl⟩ := hx
    rfl

/-- C3 (counterexample): `setOptions` does not overwrite the configuration
wholesale — applying the same options argument to two different previous
configurations yields different results, so the resulting configuration is
not determined by the argument alone (here the previous `fileDirName` is
retained). -/
theorem setOptions_depends_on_previous_config :
    ImageCacheFAC.setOptions ImageCacheFAC.options ⟨some ["http"], none, none, none⟩
      ≠ ImageCacheFAC.setOptions { ImageCacheFAC.options with fileDirName := "other-dir" }
          ⟨some ["http"], none, none, none⟩ := by
  decide

/-- C3 (amended): `setOptions` shallow-merges the given options over the
current configuration: every field supplied in the argument overwrites the
corresponding field, and every omitted field retains its previous value —
so the configuration equals the argument only when the argument supplies
every field. -/
theorem setOptions_shallow_merges (c : Options) (o : OptionsArg) :
    (ImageCacheFAC.setOptions c o).validProtocols = o.validProtocols.getD c.validProtocols
    ∧ (ImageCacheFAC.setOptions c o).fileHostWhitelist = o.fileHostWhitelist.getD c.fileHostWhitelist
    ∧ (ImageCacheFAC.setOptions c o).cachePruneTriggerLimit = o.cachePruneTriggerLimit.getD c.cachePruneTriggerLimit
    ∧ (ImageCacheFAC.setOptions c o).fileDirName = o.fileDirName.getD c.fileDirName :=
  ⟨rfl, rfl, rfl, rfl⟩

/-- C4: `flush` empties both areas and reports, per area, exactly the
result of that area's deletion: the `permanentDirFlushed` and
`cacheDirFlushed` fields are the respective `unlink` results, and each is
`true` precisely when the area held something beforehand. -/
theorem flush_reports_each_area (fs : FSState) :
    (flush fs).2.permanentDirFlushed = (unlink fs CacheArea.permanent).2
    ∧ (flush fs).2.cacheDirFlushed = (unlink fs CacheArea.cache).2
    ∧ ((flush fs).2.permanentDirFlushed = true ↔ fs.permanentFiles ≠ [])
    ∧ ((flush fs).2.cacheDirFlushed = true ↔ fs.cacheFiles ≠ [])
    ∧ (flush fs).1.permanentFiles = [] ∧ (flush fs).1.cacheFiles = [] := by
  refine ⟨rfl, rfl, ?_, ?_, rfl, rfl⟩ <;>
    simp [flush, unlink, List.isEmpty_iff]

/-- C5: registering a callback through `onPruned` and then calling the
returned unsubscribe function round-trips — a subsequent trigger for that
URL no longer invokes the unsubscribed callback, while every distinct
callback registered for the same URL is still invoked with unchanged
multiplicity. -/
theorem onPruned_unsubscribe_removes_only_that (hs : PruneHandlers) (url : String)
    (cb cbOther : Nat) (h : cbOther ≠ cb) :
    cb ∉ (PruneHandler.trigger ((onPruned hs url cb).2 (onPruned hs url cb).1) url).map Prod.fst
    ∧ ((PruneHandler.trigger ((onPruned hs url cb).2 (onPruned hs url cb).1) url).map Prod.fst).count cbOther
        = (registeredFor hs url).count cbOther := by
  have hadd : alookup (PruneHandler.add hs url cb) url = some (registeredFor hs url ++ [cb]) := by
    unfold PruneHandler.add registeredFor
    exact alookup_aset hs url _
  have htrig : alookup ((onPruned hs url cb).2 (onPruned hs url cb).1) url
      = some ((registeredFor hs url ++ [cb]).filter fun c => c != cb) := by
    simp only [onPruned]
    unfold PruneHandler.remove
    rw [hadd]
    exact alookup_aset _ url _
  constructor
  · simp [PruneHandler.trigger, htrig, List.mem_filter]
  · simp only [PruneHandler.trigger, htrig]
    rw [map_fst_pair]
    rw [List.filter_append]
    simp only [List.filter_cons, List.filter_nil, bne_self_eq_false, Bool.false_eq_true,
      if_false, List.append_nil]
    exact count_filter_bne _ _ _ h

/-- C5 (witness): with callback 2 registered for URL `u`, registering
callback 1 and immediately unsubscribing it leaves a trigger firing
callback 2 once and callback 1 not at all. -/
theorem onPruned_unsubscribe_removes_only_that_witness :
    (2 : Nat) ≠ 1
    ∧ ((1 : Nat) ∉ (PruneHandler.trigger ((onPruned [("u", [2])] "u" 1).2 (onPruned [("u", [2])] "u" 1).1) "u").map Prod.fst
       ∧ ((PruneHandler.trigger ((onPruned [("u", [2])] "u" 1).2 (onPruned [("u", [2])] "u" 1).1) "u").map Prod.fst).count 2
           = (registeredFor [("u", [2])] "u").count 2) :=
  ⟨by decide, onPruned_unsubscribe_removes_only_that [("u", [2])] "u" 1 2 (by decide)⟩

/-- C6: when the local-path resolution rejects, `_loadImage` catches the
error (the embedded function is total, so nothing propagates), invokes
`onReject` exactly when one was provided, and leaves the component in the
rejected state: `rejected` true, `pending` false, no local path —
regardless of the initial state and of mount status. -/
theorem loadImage_presents_rejected_state (st : CompState) (e : String)
    (hasOnReject isMounted : Bool) :
    ImageCacheFAC.loadImage st (Except.error e) hasOnReject isMounted
      = ({ localFilePath := none, pending := false, rejected := true }, hasOnReject) :=
  rfl

/-- C7: constructing the component with an absent `source.uri`, or with one
that is not a URL with a configured valid protocol and (when a whitelist is
configured) an allowed host, makes the constructor throw — and the
constructor issues no lock-registry call and no fetch/resolve call. -/
theorem construct_throws_on_invalid_source (opts : Options) (uri : Option String)
    (h : uri = none ∨ ∃ u, uri = some u ∧ specURLValid opts u = false) :
    (construct opts uri).1.isOk = false ∧ (construct opts uri).2 = [] := by
  have hv : validateImageComponent opts uri = false := by
    rcases h with h | ⟨u, hu, hval⟩
    · simp [validateImageComponent, h]
    · subst hu
      unfold validateImageComponent
      by_cases hne : u = ""
      · simp [hne]
      · simp only [hne, if_false]
        unfold specURLValid at hval
        unfold isURL
        cases hb : breakSub u.toList with
        | none => rfl
        | some pr =>
          obtain ⟨proto, rest⟩ := pr
          rw [hb] at hval
          cases hempty : opts.fileHostWhitelist.isEmpty with
          | true =>
            simp [hempty]
          | false =>
            rw [hempty] at hval
            simp only [Bool.false_or] at hval
            simp only [hempty, if_false]
            exact hval
  constructor
  · unfold construct
    rw [hv]
    rfl
  · rfl

/-- C7 (witness): a `ftp`-scheme URL is outside the default valid
protocols, so construction fails and performs no registry call. -/
theorem construct_throws_on_invalid_source_witness :
    (some "ftp://example.com/a.png" = none
      ∨ ∃ u, some "ftp://example.com/a.png" = some u
          ∧ specURLValid ImageCacheFAC.options u = false)
    ∧ ((construct ImageCacheFAC.options (some "ftp://example.com/a.png")).1.isOk = false
       ∧ (construct ImageCacheFAC.options (some "ftp://example.com/a.png")).2 = []) :=
  ⟨Or.inr ⟨_, rfl, by decide⟩,
   construct_throws_on_invalid_source ImageCacheFAC.options (some "ftp://example.com/a.png")
     (Or.inr ⟨_, rfl, by decide⟩)⟩

/-- C8: under the default configuration the host whitelist is empty, and a
well-formed URL with an allowed protocol and an arbitrary host — which the
claim says is never rejected on host grounds — is nevertheless rejected by
`_validateImageComponent`, because the code passes the empty array as the
validator's `host_whitelist`, which then requires the host to be a member
of the empty list. -/
theorem empty_whitelist_rejects_well_formed_url :
    specURLValid ImageCacheFAC.options "https://example.com/dog.jpg" = true
    ∧ ImageCacheFAC.options.fileHostWhitelist = []
    ∧ validateImageComponent ImageCacheFAC.options (some "https://example.com/dog.jpg") = false :=
  ⟨by decide, rfl, by decide⟩

/-- C9: the default `cachePruneTriggerLimit` is exactly
15 * 1024 * 1024 = 15728640 bytes. -/
theorem default_cachePruneTriggerLimit_is_15MiB :
    ImageCacheFAC.options.cachePruneTriggerLimit = 15728640 := by
  decide

/-- C10: when the underlying prune rejects, `flushFile` propagates that
rejection and fires no callback at all for any URL. -/
theorem flushFile_rejection_fires_no_callbacks (hs : PruneHandlers) (url e : String) :
    flushFile hs url (Except.error e) = (Except.error e, []) :=
  rfl
